import Mathlib

/-!
A shallow embedding, in Lean 4, of the core of a Telegram tic-tac-toe bot
written in Rust (files `callback_data.rs`, `game.rs`, `concurrent_hash_map.rs`).

Conventions of the embedding:
* Rust `usize` is modelled as `Nat`; where the source parses a `usize` from
  text, overflow past `2 ^ 64` is modelled explicitly (`USIZE_BOUND`).
* Rust `&str` values crossing the command boundary are modelled as `List Char`.
* `HashMap K V` fields are modelled as functions `K → Option V`; `HashMap`
  iteration in the source is only ever used through order-independent
  combinators (`any`, `len`, point lookups), so this is faithful.
* Fallible functions that mutate `&mut self` are modelled as
  `Game → Except GameError Unit × Game`: the second component is the state
  after the call, translated statement by statement, so that early returns
  carry exactly the mutations performed before the return.
-/

namespace TicTacToe

/-- The word size bound of the target: `usize::from_str` fails on values
at or above `2 ^ 64` (64-bit target). -/
def USIZE_BOUND : Nat := 2 ^ 64

/-- `game.rs`: `enum GameError`. -/
inductive GameError where
  | OutOfBounds
  | AlreadyOccupied
  | UnknownIndex
  | IllegalState
  | Permission
  | NoData
  | UnknownCommand
deriving DecidableEq, Repr

/-- `callback_data.rs`: `enum CallbackData`. `Place` carries two `usize`
coordinates, modelled as `Nat` (values constructible in the source are
below `USIZE_BOUND`). -/
inductive CallbackData where
  | Join
  | Restart
  | Place (x : Nat) (y : Nat)
  | Unknown
deriving DecidableEq, Repr

/-- Numeric value of a decimal ASCII digit character (the inverse of
`Nat.digitChar` on digits). -/
def charVal (c : Char) : Nat := c.toNat - 48

/-- Rust `str::parse::<usize>` restricted to sign-free bodies: a non-empty
all-digit string, value below the word-size bound. -/
def parseDigits (cs : List Char) : Option Nat :=
  if cs = [] then none
  else if cs.all (fun c => c.isDigit) then
    let v := Nat.ofDigits 10 ((cs.map charVal).reverse)
    if v < USIZE_BOUND then some v else none
  else none

/-- Rust `str::parse::<usize>`: an optional leading `+` sign followed by a
non-empty run of decimal digits; anything else (or overflow) fails. -/
def parseUsize (cs : List Char) : Option Nat :=
  match cs with
  | c :: rest => if c = '+' then parseDigits rest else parseDigits (c :: rest)
  | [] => parseDigits []

/-- Rust `str::split` with a one-character separator: yields the (possibly
empty) fields between separators; the empty string yields one empty field. -/
def splitOn (sep : Char) : List Char → List (List Char)
  | [] => [[]]
  | c :: cs =>
    if c = sep then [] :: splitOn sep cs
    else
      match splitOn sep cs with
      | [] => [[c]]
      | h :: t => (c :: h) :: t

/-- Rust `str::starts_with` on character lists. -/
def startsWith : List Char → List Char → Bool
  | [], _ => true
  | _ :: _, [] => false
  | p :: ps, c :: cs => p = c && startsWith ps cs

/-- Decimal rendering of a `Nat`, as Rust `format!("{x}")` produces it:
most-significant digit first, `"0"` for zero. -/
def natChars (n : Nat) : List Char :=
  if n = 0 then ['0']
  else ((Nat.digits 10 n).map Nat.digitChar).reverse

/-- `callback_data.rs`: `impl Display for CallbackData` (the encoder). -/
def CallbackData.toChars : CallbackData → List Char
  | .Join => "join".toList
  | .Place x y => "place:".toList ++ natChars x ++ ':' :: natChars y
  | .Unknown => "unknown".toList
  | .Restart => "restart".toList

/-- `callback_data.rs`: `impl FromStr for CallbackData` (the decoder).
`"join"` and `"restart"` match exactly; any string starting with `"place"`
is split on `':'`, the head field is skipped, and the next two fields must
each parse as `usize` (first failure aborts with `UnknownCommand`); every
other string decodes to `Unknown`. -/
def CallbackData.fromChars (s : List Char) : Except GameError CallbackData :=
  if s = "join".toList then .ok .Join
  else if startsWith "place".toList s then
    match (splitOn ':' s).drop 1 with
    | [] => .error .UnknownCommand
    | f1 :: rest =>
      match parseUsize f1 with
      | none => .error .UnknownCommand
      | some x =>
        match rest with
        | [] => .error .UnknownCommand
        | f2 :: _ =>
          match parseUsize f2 with
          | none => .error .UnknownCommand
          | some y => .ok (.Place x y)
  else if s = "restart".toList then .ok .Restart
  else .ok .Unknown

/-- `game.rs`: `enum Shape` (`X` is `#[default]`). -/
inductive Shape where
  | X
  | O
deriving DecidableEq, Repr, Fintype

/-- `game.rs`: `static SHAPES: [Shape; 2] = [Shape::X, Shape::O]`. -/
def SHAPES : List Shape := [Shape.X, Shape.O]

/-- `game.rs`: `struct Board([[Option<Shape>; BOARD_SIZE]; BOARD_SIZE])` with
`BOARD_SIZE = 3`: the grid is indexed row first (`self[y][x]`). -/
def Board : Type := Fin 3 → Fin 3 → Option Shape

/-- `game.rs`: `struct BoardIndex(pub usize, pub usize)` — an `(x, y)` pair;
values built by `BoardIndex::new` are within bounds, recorded here as `Fin 3`. -/
structure BoardIndex where
  x : Fin 3
  y : Fin 3
deriving DecidableEq

/-- `game.rs`: `BoardIndex::new`: fails with `OutOfBounds` when either
coordinate exceeds `MAX_INDEX = 2`. -/
def BoardIndex.new (x y : Nat) : Except GameError BoardIndex :=
  if h : x > 2 ∨ y > 2 then .error .OutOfBounds
  else .ok ⟨⟨x, by omega⟩, ⟨y, by omega⟩⟩

/-- `game.rs`: `WIN_CONDITIONS`, the fixed 8 lines, in source order. -/
def WIN_CONDITIONS : List (List BoardIndex) :=
  [ [⟨0, 0⟩, ⟨0, 1⟩, ⟨0, 2⟩],
    [⟨1, 0⟩, ⟨1, 1⟩, ⟨1, 2⟩],
    [⟨2, 0⟩, ⟨2, 1⟩, ⟨2, 2⟩],
    [⟨0, 1⟩, ⟨1, 1⟩, ⟨2, 1⟩],
    [⟨0, 0⟩, ⟨1, 0⟩, ⟨2, 0⟩],
    [⟨0, 2⟩, ⟨1, 2⟩, ⟨2, 2⟩],
    [⟨0, 0⟩, ⟨1, 1⟩, ⟨2, 2⟩],
    [⟨2, 0⟩, ⟨1, 1⟩, ⟨0, 2⟩] ]

/-- `game.rs`: `Board::empty`. -/
def Board.empty : Board := fun _ _ => none

/-- `game.rs`: `Board::get_ref` — `self[index.1][index.0]`. -/
def Board.get (b : Board) (i : BoardIndex) : Option Shape := b i.y i.x

/-- `game.rs`: `Board::set_cell` — `self[index.1][index.0] = Some(shape)`. -/
def Board.setCell (b : Board) (i : BoardIndex) (s : Shape) : Board :=
  fun y x => if y = i.y ∧ x = i.x then some s else b y x

/-- The combining closure of `Board::check_win_condition`'s `reduce`:
`let a = a?; (a == b?).then_some(a)`. -/
def reduceStep (a b : Option Shape) : Option Shape :=
  match a with
  | none => none
  | some a =>
    match b with
    | none => none
    | some b => if a = b then some a else none

/-- `game.rs`: `Board::check_win_condition` — map the cells of one line
through `get_ref` and `reduce` them with `reduceStep`; an empty line (never
produced) yields `none` via `unwrap_or_default`. -/
def Board.checkWinCondition (b : Board) (cond : List BoardIndex) : Option Shape :=
  match cond.map b.get with
  | [] => none
  | c :: cs => cs.foldl reduceStep c

/-- `game.rs`: `Board::check_winner` — the first line of `WIN_CONDITIONS`
whose cells all hold one mark. -/
def Board.checkWinner (b : Board) : Option Shape :=
  WIN_CONDITIONS.findSome? b.checkWinCondition

/-- `game.rs`: `Board::check_draw` — every cell is set. -/
def Board.checkDraw (b : Board) : Bool :=
  (List.finRange 3).all fun y => (List.finRange 3).all fun x => (b y x).isSome

/-- `teloxide::types::User` as the game uses it: an identity compared by
`id` at authorization sites, and by whole-value equality as the key of the
score map. -/
structure User where
  id : Nat
  name : String
deriving DecidableEq, Repr

/-- `game.rs`: `enum GameResult`. -/
inductive GameResult where
  | Victory (winner : Shape)
  | Draw
deriving DecidableEq, Repr

/-- `game.rs`: `enum GameState`. -/
inductive GameState where
  | Waiting
  | Turn (shape : Shape)
  | Finished (result : GameResult)
deriving DecidableEq, Repr

/-- `game.rs`: `struct Game`. The two `HashMap` fields are modelled as
functions to `Option`. -/
structure Game where
  board : Board
  players : Shape → Option User
  score : User → Option Nat
  state : GameState

/-- `impl Default for Game`. -/
def Game.default : Game :=
  { board := Board.empty
    players := fun _ => none
    score := fun _ => none
    state := .Waiting }

/-- `HashMap::insert` on the function model. -/
def mapInsert {α β : Type} [DecidableEq α] (f : α → Option β) (k : α) (v : β) :
    α → Option β :=
  fun a => if a = k then some v else f a

/-- `self.players.len()` on the function model. -/
def Game.playersLen (g : Game) : Nat :=
  (if (g.players .X).isSome then 1 else 0) + (if (g.players .O).isSome then 1 else 0)

/-- `self.players.values().any(|value| value.id == uid)`. -/
def Game.anyPlayerId (g : Game) (uid : Nat) : Bool :=
  ((g.players .X).any fun v => v.id = uid) || ((g.players .O).any fun v => v.id = uid)

/-- `SHAPES.iter().find(|shape| !self.players.contains_key(shape))`. -/
def Game.findFreeShape (g : Game) : Option Shape :=
  SHAPES.find? fun sh => (g.players sh).isNone

/-- `self.score.entry(user).or_insert(0) += 1`. -/
def scoreIncr (f : User → Option Nat) (u : User) : User → Option Nat :=
  mapInsert f u ((f u).getD 0 + 1)

/-- `game.rs`: `Game::add_user`, statement by statement: pick the first
unseated shape (`IllegalState` if none), reject an identity already seated
(`Permission`), then insert a zero score entry and seat the user. -/
def Game.addUser (g : Game) (u : User) : Except GameError Unit × Game :=
  match g.findFreeShape with
  | none => (.error .IllegalState, g)
  | some shape =>
    if g.anyPlayerId u.id then (.error .Permission, g)
    else
      let g := { g with score := mapInsert g.score u 0 }
      let g := { g with players := mapInsert g.players shape u }
      (.ok (), g)

/-- A `teloxide::types::CallbackQuery` as the game consumes it: the issuing
user and the optional textual payload. -/
structure Query where
  fromUser : User
  data : Option (List Char)

/-- `game.rs`: `Game::process_callback_waiting`. -/
def Game.processCallbackWaiting (g : Game) (q : Query) : Except GameError Unit × Game :=
  match q.data with
  | none => (.error .NoData, g)
  | some s =>
    match CallbackData.fromChars s with
    | .error e => (.error e, g)
    | .ok cd =>
      if cd ≠ .Join then (.error .UnknownCommand, g)
      else
        match g.addUser q.fromUser with
        | (.error e, g) => (.error e, g)
        | (.ok _, g) =>
          if 2 ≤ g.playersLen then
            let g := { g with state := .Turn .X }
            let g := { g with board := Board.empty }
            (.ok (), g)
          else (.ok (), g)

/-- `game.rs`: `Game::swap_shapes` — read both seats (`IllegalState` if
either is empty, `X` checked first), then exchange the two `User` values. -/
def Game.swapShapes (g : Game) : Except GameError Unit × Game :=
  match g.players .X with
  | none => (.error .IllegalState, g)
  | some ux =>
    match g.players .O with
    | none => (.error .IllegalState, g)
    | some uo =>
      let g := { g with players := mapInsert (mapInsert g.players .X uo) .O ux }
      (.ok (), g)

/-- `game.rs`: `Game::reset` — swap seats, clear the board, start at
`Shape::default()` (that is, `X`). -/
def Game.reset (g : Game) : Except GameError Unit × Game :=
  match g.swapShapes with
  | (.error e, g) => (.error e, g)
  | (.ok _, g) =>
    let g := { g with board := Board.empty }
    let g := { g with state := .Turn .X }
    (.ok (), g)

/-- `game.rs`: `Game::process_callback_finished`. -/
def Game.processCallbackFinished (g : Game) (q : Query) : Except GameError Unit × Game :=
  match q.data with
  | none => (.error .NoData, g)
  | some s =>
    match CallbackData.fromChars s with
    | .error e => (.error e, g)
    | .ok cd =>
      if cd ≠ .Restart then (.error .UnknownCommand, g)
      else if ¬ g.anyPlayerId q.fromUser.id then (.error .Permission, g)
      else g.reset

/-- `Shape` toggling at the end of a non-terminal `Place`. -/
def toggleShape : Shape → Shape
  | .O => .X
  | .X => .O

/-- `game.rs`: `Game::process_callback_turn`: resolve the seated user for
the turn mark (`IllegalState` if unseated), authorize the issuer
(`Permission`), then fetch and decode the payload; only a `Place` is
accepted (any other decoded command is `IllegalState`); the target cell must
be free (`AlreadyOccupied`); finally place the mark and resolve
win / draw / turn-toggle in that order. -/
def Game.processCallbackTurn (g : Game) (turnShape : Shape) (q : Query) :
    Except GameError Unit × Game :=
  match g.players turnShape with
  | none => (.error .IllegalState, g)
  | some shapeUser =>
    if shapeUser.id ≠ q.fromUser.id then (.error .Permission, g)
    else
      match q.data with
      | none => (.error .NoData, g)
      | some s =>
        match CallbackData.fromChars s with
        | .error e => (.error e, g)
        | .ok cd =>
          match (match cd with
                 | .Place x y => BoardIndex.new x y
                 | _ => .error .IllegalState) with
          | .error e => (.error e, g)
          | .ok index =>
            if (g.board.get index).isSome then (.error .AlreadyOccupied, g)
            else
              let g := { g with board := g.board.setCell index turnShape }
              match g.board.checkWinner with
              | some winner =>
                let g :=
                  match g.players winner with
                  | some wu => { g with score := scoreIncr g.score wu }
                  | none => g
                (.ok (), { g with state := .Finished (.Victory winner) })
              | none =>
                if g.board.checkDraw then
                  (.ok (), { g with state := .Finished .Draw })
                else
                  (.ok (), { g with state := .Turn (toggleShape turnShape) })

/-- `game.rs`: `Game::process_callback` — dispatch on the current phase. -/
def Game.processCallback (g : Game) (q : Query) : Except GameError Unit × Game :=
  match g.state with
  | .Waiting => g.processCallbackWaiting q
  | .Turn turn => g.processCallbackTurn turn q
  | .Finished _ => g.processCallbackFinished q

/-!
`concurrent_hash_map.rs`: an interleaving model of `get_or_default` for one
fixed key and two concurrent callers. Each lock-protected section of the
source is one atomic step (granting the code the coarsest — most
favourable — atomicity):
* `get` (read-lock, lookup, clone, unlock) is one step;
* `Arc::new(Mutex::new(V::default()))` allocates a fresh session,
  identified here by an allocation counter;
* the write-locked `insert` (which overwrites unconditionally, without
  re-checking for an entry) is one step.
Sessions are identified by allocation number; `slot` is the map entry under
the key. -/

/-- The program counter of one task running `get_or_default`. -/
inductive TaskState where
  | start
  | sawAbsent
  | created (v : Nat)
  | finished (v : Nat)
deriving DecidableEq, Repr

/-- The whole system: the map entry under the contended key, the allocation
counter, and the two tasks. -/
structure StoreState where
  slot : Option Nat
  nextId : Nat
  tasks : Fin 2 → TaskState

/-- One atomic step of task `i`, following `get_or_default` line by line. -/
def storeStep (s : StoreState) (i : Fin 2) : StoreState :=
  match s.tasks i with
  | .start =>
    match s.slot with
    | some v => { s with tasks := fun j => if j = i then .finished v else s.tasks j }
    | none => { s with tasks := fun j => if j = i then .sawAbsent else s.tasks j }
  | .sawAbsent =>
    { s with
      nextId := s.nextId + 1
      tasks := fun j => if j = i then .created s.nextId else s.tasks j }
  | .created v =>
    { s with
      slot := some v
      tasks := fun j => if j = i then .finished v else s.tasks j }
  | .finished _ => s

/-- Run a schedule (a list of task choices) from a state. -/
def storeRun (s : StoreState) : List (Fin 2) → StoreState
  | [] => s
  | i :: rest => storeRun (storeStep s i) rest

/-- The initial state: the key absent, no allocations, both tasks at entry. -/
def storeInit : StoreState :=
  { slot := none, nextId := 0, tasks := fun _ => .start }

deriving instance DecidableEq for Except

/-- Commands constructible in the source: `Place` coordinates are `usize`
values, hence below the word-size bound. -/
def constructibleCmd : CallbackData → Prop
  | .Place x y => x < USIZE_BOUND ∧ y < USIZE_BOUND
  | _ => True

/-! ### Concrete boards and sessions used by counterexamples and witnesses -/

/-- An (unreachable) board holding two complete lines at once: row 0 is all
`X`, row 1 is all `O`. -/
def bTwoLines : Board := fun y _ =>
  if y.val = 0 then some Shape.X else if y.val = 1 then some Shape.O else none

def userA : User := ⟨1, "Alice"⟩

def userB : User := ⟨2, "Bob"⟩

def userC : User := ⟨3, "Carol"⟩

/-- A session in which only `userA` has joined (seated at `X`). -/
def gWaitA : Game :=
  { board := Board.empty
    players := fun sh => match sh with | .X => some userA | .O => none
    score := fun u => if u = userA then some 0 else none
    state := .Waiting }

/-- A session right after both joins: `userA` at `X`, `userB` at `O`, `X`
to move on an empty board. -/
def gTurnAB : Game :=
  { board := Board.empty
    players := fun sh => match sh with | .X => some userA | .O => some userB
    score := fun u => if u = userA then some 0 else if u = userB then some 0 else none
    state := .Turn .X }

/-- A board one move away from a simultaneous full-board column win: placing
`X` at `(0, 2)` completes column 0 and fills the last empty cell. -/
def bAlmostFull : Board := fun y x =>
  match y.val, x.val with
  | 0, 0 => some .X
  | 0, 1 => some .O
  | 0, 2 => some .X
  | 1, 0 => some .X
  | 1, 1 => some .O
  | 1, 2 => some .O
  | 2, 0 => none
  | 2, 1 => some .X
  | 2, 2 => some .O
  | _, _ => none

/-- The session holding `bAlmostFull` with `X` (`userA`) to move. -/
def gAlmostFull : Game :=
  { board := bAlmostFull
    players := fun sh => match sh with | .X => some userA | .O => some userB
    score := fun u => if u = userA then some 0 else if u = userB then some 0 else none
    state := .Turn .X }

/-- A finished session: `userA` at `X` (the round's winner), `userB` at `O`. -/
def gFinAB : Game :=
  { board := fun _ _ => some Shape.X
    players := fun sh => match sh with | .X => some userA | .O => some userB
    score := fun u => if u = userA then some 1 else if u = userB then some 0 else none
    state := .Finished (.Victory .X) }

/-! ### Lemmas about the command codec -/

theorem charVal_digitChar {d : Nat} (h : d < 10) : charVal (Nat.digitChar d) = d := by
  interval_cases d <;> rfl

theorem isDigit_digitChar {d : Nat} (h : d < 10) : (Nat.digitChar d).isDigit = true := by
  interval_cases d <;> rfl

theorem digit_ne_colon {c : Char} (h : c.isDigit = true) : c ≠ ':' := by
  intro hc
  rw [hc] at h
  exact absurd h (by decide)

theorem digit_ne_plus {c : Char} (h : c.isDigit = true) : c ≠ '+' := by
  intro hc
  rw [hc] at h
  exact absurd h (by decide)

theorem natChars_ne_nil (n : Nat) : natChars n ≠ [] := by
  unfold natChars
  split
  · simp
  · simp [Nat.digits_ne_nil_iff_ne_zero, *]

theorem natChars_all_digits (n : Nat) :
    ∀ c ∈ natChars n, c.isDigit = true := by
  intro c hc
  unfold natChars at hc
  split at hc
  · simp at hc
    subst hc
    rfl
  · simp only [List.mem_reverse, List.mem_map] at hc
    obtain ⟨d, hd, rfl⟩ := hc
    exact isDigit_digitChar (Nat.digits_lt_base (by norm_num) hd)

theorem parseDigits_natChars {n : Nat} (h : n < USIZE_BOUND) :
    parseDigits (natChars n) = some n := by
  unfold parseDigits
  rw [if_neg (natChars_ne_nil n)]
  rw [if_pos (by simpa [List.all_eq_true] using natChars_all_digits n)]
  have hmap : (natChars n).map charVal = if n = 0 then [0] else (Nat.digits 10 n).reverse := by
    unfold natChars
    split
    · rfl
    · rw [← List.map_reverse, List.map_map]
      have hcong :
          List.map (charVal ∘ Nat.digitChar) (Nat.digits 10 n).reverse
            = List.map id (Nat.digits 10 n).reverse :=
        List.map_congr_left fun d hd =>
          charVal_digitChar (Nat.digits_lt_base (by norm_num) (List.mem_reverse.mp hd))
      rw [hcong, List.map_id]
  rw [hmap]
  split
  · subst ‹n = 0›
    simp only [List.reverse_cons, List.reverse_nil, List.nil_append]
    norm_num [Nat.ofDigits]
    intro h0
    exact absurd h0 (by decide)
  · rw [List.reverse_reverse, Nat.ofDigits_digits]
    simp [h]

theorem parseUsize_natChars {n : Nat} (h : n < USIZE_BOUND) :
    parseUsize (natChars n) = some n := by
  obtain ⟨c, t, hct⟩ := List.exists_cons_of_ne_nil (natChars_ne_nil n)
  have hdig : c.isDigit = true := natChars_all_digits n c (hct ▸ List.mem_cons_self c t)
  rw [hct]
  show (if c = '+' then parseDigits t else parseDigits (c :: t)) = some n
  rw [if_neg (digit_ne_plus hdig), ← hct]
  exact parseDigits_natChars h

theorem splitOn_of_not_mem (sep : Char) :
    ∀ (cs : List Char), sep ∉ cs → splitOn sep cs = [cs] := by
  intro cs
  induction cs with
  | nil => intro _; rfl
  | cons c cs ih =>
    intro h
    have hc : c ≠ sep := fun hh => h (by simp [hh])
    have ht : sep ∉ cs := fun hh => h (by simp [hh])
    simp only [splitOn, if_neg hc, ih ht]

theorem splitOn_append_sep (sep : Char) (r : List Char) :
    ∀ (a : List Char), sep ∉ a → splitOn sep (a ++ sep :: r) = a :: splitOn sep r := by
  intro a
  induction a with
  | nil =>
    intro _
    simp [splitOn]
  | cons c a ih =>
    intro h
    have hc : c ≠ sep := fun hh => h (by simp [hh])
    have ht : sep ∉ a := fun hh => h (by simp [hh])
    simp only [List.cons_append, splitOn, if_neg hc]
    rw [show List.append a (sep :: r) = a ++ sep :: r from rfl, ih ht]

theorem startsWith_append (p r : List Char) : startsWith p (p ++ r) = true := by
  induction p with
  | nil => rfl
  | cons c cs ih => simpa [startsWith] using ih

theorem natChars_not_mem_colon (n : Nat) : ':' ∉ natChars n := by
  intro h
  exact digit_ne_colon (natChars_all_digits n ':' h) rfl

theorem fromChars_of_split (s : List Char) (f1 f2 : List Char) (fs : List (List Char))
    (x y : Nat)
    (hne : s ≠ "join".toList) (hp : startsWith "place".toList s = true)
    (hsp : (splitOn ':' s).drop 1 = f1 :: f2 :: fs)
    (hx : parseUsize f1 = some x) (hy : parseUsize f2 = some y) :
    CallbackData.fromChars s = .ok (.Place x y) := by
  unfold CallbackData.fromChars
  rw [if_neg hne, if_pos hp, hsp]
  simp [hx, hy]

theorem place_head_ne_join (t : List Char) : 'p' :: t ≠ "join".toList := by
  intro hEq
  injection hEq with h1 _
  exact absurd h1 (by decide)

theorem fromChars_place_tok (x y : Nat) (hx : x < USIZE_BOUND) (hy : y < USIZE_BOUND) :
    CallbackData.fromChars ("place:".toList ++ natChars x ++ ':' :: natChars y)
      = .ok (.Place x y) := by
  have hform : ("place:".toList ++ natChars x ++ ':' :: natChars y)
      = "place".toList ++ ':' :: (natChars x ++ ':' :: natChars y) := rfl
  refine fromChars_of_split _ (natChars x) (natChars y) [] x y
    (place_head_ne_join _) ?_ ?_ (parseUsize_natChars hx) (parseUsize_natChars hy)
  · rw [hform]
    exact startsWith_append _ _
  · rw [hform, splitOn_append_sep _ _ _ (by decide),
      splitOn_append_sep _ _ _ (natChars_not_mem_colon x),
      splitOn_of_not_mem _ _ (natChars_not_mem_colon y)]
    rfl

theorem fromChars_place_tok_extra (x y : Nat) (rest : List Char)
    (hx : x < USIZE_BOUND) (hy : y < USIZE_BOUND) :
    CallbackData.fromChars
        ("place:".toList ++ natChars x ++ ':' :: natChars y ++ ':' :: rest)
      = .ok (.Place x y) := by
  have hform : ("place:".toList ++ natChars x ++ ':' :: natChars y ++ ':' :: rest)
      = "place".toList ++ ':' :: (natChars x ++ ':' :: (natChars y ++ ':' :: rest)) := by
    simp
  refine fromChars_of_split _ (natChars x) (natChars y) (splitOn ':' rest) x y
    ?_ ?_ ?_ (parseUsize_natChars hx) (parseUsize_natChars hy)
  · rw [hform]
    exact place_head_ne_join _
  · rw [hform]
    exact startsWith_append _ _
  · rw [hform, splitOn_append_sep _ _ _ (by decide),
      splitOn_append_sep _ _ _ (natChars_not_mem_colon x),
      splitOn_append_sep _ _ _ (natChars_not_mem_colon y)]
    rfl

theorem fromChars_other_unknown (s : List Char)
    (hp : startsWith "place".toList s = false)
    (hj : s ≠ "join".toList) (hr : s ≠ "restart".toList) :
    CallbackData.fromChars s = .ok .Unknown := by
  unfold CallbackData.fromChars
  rw [if_neg hj, if_neg (by simpa using hp), if_neg hr]

theorem fromChars_place_dichotomy (s : List Char)
    (hp : startsWith "place".toList s = true) :
    CallbackData.fromChars s = .error .UnknownCommand ∨
      ∃ x y, CallbackData.fromChars s = .ok (.Place x y) := by
  have hne : s ≠ "join".toList := by
    intro hEq
    subst hEq
    exact absurd hp (by decide)
  unfold CallbackData.fromChars
  rw [if_neg hne, if_pos hp]
  cases hsp : (splitOn ':' s).drop 1 with
  | nil => simp
  | cons f1 rest =>
    cases hx : parseUsize f1 with
    | none => simp [hx]
    | some x =>
      cases rest with
      | nil => simp [hx]
      | cons f2 rest2 =>
        cases hy : parseUsize f2 with
        | none => simp [hx, hy]
        | some y =>
          right
          exact ⟨x, y, by simp [hx, hy]⟩

/-! ### Lemmas about the board and winner detection -/

theorem reduce3_eq_some :
    ∀ (a b c : Option Shape) (m : Shape),
      reduceStep (reduceStep a b) c = some m ↔
        a = some m ∧ b = some m ∧ c = some m := by
  decide

theorem checkWinCondition_triple (b : Board) (i j k : BoardIndex) :
    b.checkWinCondition [i, j, k]
      = reduceStep (reduceStep (b.get i) (b.get j)) (b.get k) := rfl

theorem checkWinCondition_mem_iff (b : Board) {cond : List BoardIndex}
    (hc : cond ∈ WIN_CONDITIONS) (m : Shape) :
    b.checkWinCondition cond = some m ↔ ∀ i ∈ cond, b.get i = some m := by
  fin_cases hc <;>
    simp [checkWinCondition_triple, reduce3_eq_some, and_assoc]

theorem checkWinner_some_line (b : Board) (m : Shape)
    (h : b.checkWinner = some m) :
    ∃ cond ∈ WIN_CONDITIONS, ∀ i ∈ cond, b.get i = some m := by
  unfold Board.checkWinner at h
  rw [List.findSome?_eq_some_iff] at h
  obtain ⟨l₁, cond, l₂, hl, hcond, -⟩ := h
  have hmem : cond ∈ WIN_CONDITIONS := by
    rw [hl]
    exact List.mem_append_right _ (List.mem_cons_self _ _)
  exact ⟨cond, hmem, (checkWinCondition_mem_iff b hmem m).mp hcond⟩

theorem checkWinner_none_iff (b : Board) :
    b.checkWinner = none ↔
      ∀ cond ∈ WIN_CONDITIONS, ∀ m : Shape, ¬ ∀ i ∈ cond, b.get i = some m := by
  unfold Board.checkWinner
  rw [List.findSome?_eq_none_iff]
  constructor
  · intro h cond hc m hall
    have := h cond hc
    rw [(checkWinCondition_mem_iff b hc m).symm.mp hall] at this
    exact Option.some_ne_none m this
  · intro h cond hc
    cases hcc : b.checkWinCondition cond with
    | none => rfl
    | some m =>
      exact absurd ((checkWinCondition_mem_iff b hc m).mp hcc) (h cond hc m)

/-! ### Claim C1 -/

/-- Claim C1: the claimed guarantee — two racing `get_or_default` calls on a
previously-absent key leave both callers holding the one stored session —
fails on the code: under the interleaving in which both tasks read before
either writes, task 0 finishes holding session 0 while the map stores
session 1, so the two callers hold distinct sessions and task 0's handle is
not the session reachable under the key. -/
theorem c1_get_or_default_race :
    (storeRun storeInit [0, 1, 0, 1, 0, 1]).tasks 0 = TaskState.finished 0 ∧
    (storeRun storeInit [0, 1, 0, 1, 0, 1]).tasks 1 = TaskState.finished 1 ∧
    (storeRun storeInit [0, 1, 0, 1, 0, 1]).slot = some 1 ∧
    TaskState.finished 0 ≠ TaskState.finished 1 :=
  ⟨rfl, rfl, rfl, by decide⟩

/-! ### Claims C4 and C5: the command codec -/

/-- Claim C4, counterexamples to the claim as stated: `"place:1:2:3"` is not
of the wire form `"place:<x>:<y>"`, yet it decodes to `Place 1 2` rather
than to `Unknown`; and a `place` token whose coordinate is a base-10
non-negative integer that overflows `usize` fails with `UnknownCommand`
rather than decoding to the corresponding command. -/
theorem c4_counterexample :
    CallbackData.fromChars "place:1:2:3".toList = .ok (.Place 1 2) ∧
    CallbackData.fromChars "place:18446744073709551616:0".toList
      = .error .UnknownCommand := by
  constructor <;> decide

/-- Claim C4 (amended): `"join"` and `"restart"` decode to `Join` and
`Restart`; `"place:<x>:<y>"` with `x`, `y` base-10 integers below the
`usize` bound decodes to `Place x y`, and any further `":"`-separated
fields are ignored; every string not starting with `"place"` other than
`"join"` and `"restart"` decodes to `Unknown` (an `Ok` result); a string
starting with `"place"` never decodes to `Unknown` — it either decodes to
some `Place` or fails with `UnknownCommand`. -/
theorem c4_decode_amended :
    CallbackData.fromChars "join".toList = .ok .Join ∧
    CallbackData.fromChars "restart".toList = .ok .Restart ∧
    (∀ x y : Nat, x < USIZE_BOUND → y < USIZE_BOUND →
      CallbackData.fromChars ("place:".toList ++ natChars x ++ ':' :: natChars y)
        = .ok (.Place x y)) ∧
    (∀ (x y : Nat) (rest : List Char), x < USIZE_BOUND → y < USIZE_BOUND →
      CallbackData.fromChars
          ("place:".toList ++ natChars x ++ ':' :: natChars y ++ ':' :: rest)
        = .ok (.Place x y)) ∧
    (∀ s : List Char, startsWith "place".toList s = false →
      s ≠ "join".toList → s ≠ "restart".toList →
      CallbackData.fromChars s = .ok .Unknown) ∧
    (∀ s : List Char, startsWith "place".toList s = true →
      CallbackData.fromChars s = .error .UnknownCommand ∨
        ∃ x y, CallbackData.fromChars s = .ok (.Place x y)) := by
  refine ⟨rfl, rfl, ?_, ?_, ?_, ?_⟩
  · exact fun x y hx hy => fromChars_place_tok x y hx hy
  · exact fun x y rest hx hy => fromChars_place_tok_extra x y rest hx hy
  · exact fun s hp hj hr => fromChars_other_unknown s hp hj hr
  · exact fun s hp => fromChars_place_dichotomy s hp

/-- Claim C4 witness: the amended decode theorem applied at the concrete
token `"place:2:1"` and at the unrecognized token `"hello"`. -/
theorem c4_decode_amended_witness :
    CallbackData.fromChars "place:2:1".toList = .ok (.Place 2 1) ∧
    CallbackData.fromChars "hello".toList = .ok .Unknown := by
  constructor
  · have h := c4_decode_amended.2.2.1 2 1 (by decide) (by decide)
    have heq : ("place:".toList ++ natChars 2 ++ ':' :: natChars 1)
        = "place:2:1".toList := by
      simp [natChars, Nat.digits_def']
      decide
    rw [heq] at h
    exact h
  · exact c4_decode_amended.2.2.2.2.1 "hello".toList (by decide) (by decide) (by decide)

/-- Claim C5: decoding the encoding of every constructible command (`Join`,
`Restart`, `Unknown`, and `Place x y` for `usize` coordinates) succeeds and
returns the original command; in particular
`decode (encode Unknown) = Unknown`. -/
theorem c5_roundtrip (cd : CallbackData) (h : constructibleCmd cd) :
    CallbackData.fromChars cd.toChars = .ok cd := by
  cases cd with
  | Join => rfl
  | Restart => rfl
  | Unknown => rfl
  | Place x y => exact fromChars_place_tok x y h.1 h.2

/-- Claim C5 witness: the round trip evaluated at `Place 2 1` and at
`Unknown`. -/
theorem c5_roundtrip_witness :
    CallbackData.fromChars (CallbackData.toChars (.Place 2 1)) = .ok (.Place 2 1) ∧
    CallbackData.fromChars (CallbackData.toChars .Unknown) = .ok .Unknown :=
  ⟨c5_roundtrip (.Place 2 1) ⟨by decide, by decide⟩,
   c5_roundtrip .Unknown trivial⟩

/-! ### Claim C6: winner detection -/

/-- Claim C6, counterexample to the claim as stated: on the board whose row
0 is all `X` and row 1 all `O`, a full enumerated line holds `X`
throughout, yet `check_winner` does not return `Some X` (it returns the
mark of the first completed line in enumeration order, here `O`). -/
theorem c6_counterexample :
    (∃ cond ∈ WIN_CONDITIONS, ∀ i ∈ cond, bTwoLines.get i = some Shape.X) ∧
    bTwoLines.checkWinner ≠ some Shape.X := by
  constructor <;> decide

/-- Claim C6 (amended): `check_winner` returns `Some m` only if one of the
8 enumerated lines holds `m` throughout, and it returns `None` exactly when
no enumerated line is uniformly one mark — so on any board with at least
one completed line some mark is returned, and on any board with none it
returns `None` regardless of fill level. -/
theorem c6_check_winner (b : Board) :
    (∀ m : Shape, b.checkWinner = some m →
      ∃ cond ∈ WIN_CONDITIONS, ∀ i ∈ cond, b.get i = some m) ∧
    (b.checkWinner = none ↔
      ∀ cond ∈ WIN_CONDITIONS, ∀ m : Shape, ¬ ∀ i ∈ cond, b.get i = some m) :=
  ⟨fun m h => checkWinner_some_line b m h, checkWinner_none_iff b⟩

/-- Claim C6 witness: on the all-`X` board the theorem yields a completed
`X` line, and on the empty board it yields `checkWinner = none`. -/
theorem c6_check_winner_witness :
    (∃ cond ∈ WIN_CONDITIONS, ∀ i ∈ cond,
      Board.get (fun _ _ => some Shape.X) i = some Shape.X) ∧
    Board.checkWinner Board.empty = none := by
  constructor
  · exact (c6_check_winner (fun _ _ => some Shape.X)).1 Shape.X (by decide)
  · exact (c6_check_winner Board.empty).2.mpr (by decide)

/-! ### Lemmas about the game handlers: failures never mutate -/

theorem addUser_error_state (g : Game) (u : User) (e : GameError)
    (h : (g.addUser u).1 = .error e) : (g.addUser u).2 = g := by
  unfold Game.addUser at h ⊢
  cases hf : g.findFreeShape with
  | none => simp [hf]
  | some shape =>
    by_cases hb : g.anyPlayerId u.id = true
    · simp [hf, hb]
    · simp [hf, hb] at h

theorem swapShapes_error_state (g : Game) (e : GameError)
    (h : g.swapShapes.1 = .error e) : g.swapShapes.2 = g := by
  unfold Game.swapShapes at h ⊢
  cases hx : g.players .X with
  | none => simp [hx]
  | some ux =>
    cases ho : g.players .O with
    | none => simp [hx, ho]
    | some uo => simp [hx, ho] at h

theorem reset_error_state (g : Game) (e : GameError)
    (h : g.reset.1 = .error e) : g.reset.2 = g := by
  unfold Game.reset at h ⊢
  rcases hsw : g.swapShapes with ⟨r, g'⟩
  cases r with
  | error e' =>
    simp only [hsw] at h ⊢
    have hg' := swapShapes_error_state g e' (by rw [hsw])
    rw [hsw] at hg'
    exact hg'
  | ok _ => simp [hsw] at h

theorem waiting_error_state (g : Game) (q : Query) (e : GameError)
    (h : (g.processCallbackWaiting q).1 = .error e) :
    (g.processCallbackWaiting q).2 = g := by
  unfold Game.processCallbackWaiting at h ⊢
  cases hd : q.data with
  | none => simp [hd]
  | some s =>
    cases hcd : CallbackData.fromChars s with
    | error e' => simp [hd, hcd]
    | ok cd =>
      by_cases hj : cd = CallbackData.Join
      · subst hj
        rcases hau : g.addUser q.fromUser with ⟨r, g'⟩
        cases r with
        | error e' =>
          have hg' := addUser_error_state g q.fromUser e' (by rw [hau])
          rw [hau] at hg'
          simp [hd, hcd, hau, hg']
        | ok _ =>
          by_cases hlen : 2 ≤ g'.playersLen
          · simp [hd, hcd, hau, hlen] at h
          · simp [hd, hcd, hau, hlen] at h
      · simp [hd, hcd, hj]

theorem finished_error_state (g : Game) (q : Query) (e : GameError)
    (h : (g.processCallbackFinished q).1 = .error e) :
    (g.processCallbackFinished q).2 = g := by
  unfold Game.processCallbackFinished at h ⊢
  cases hd : q.data with
  | none => simp [hd]
  | some s =>
    cases hcd : CallbackData.fromChars s with
    | error e' => simp [hd, hcd]
    | ok cd =>
      by_cases hr : cd = CallbackData.Restart
      · subst hr
        by_cases hperm : g.anyPlayerId q.fromUser.id = true
        · simp only [hd, hcd] at h ⊢
          simp only [ne_eq, not_true_eq_false, if_false, hperm,
            Bool.true_eq_false, ite_false] at h ⊢
          exact reset_error_state g e h
        · simp [hd, hcd, hperm]
      · simp [hd, hcd, hr]

theorem turn_error_state (g : Game) (t : Shape) (q : Query) (e : GameError)
    (h : (g.processCallbackTurn t q).1 = .error e) :
    (g.processCallbackTurn t q).2 = g := by
  unfold Game.processCallbackTurn at h ⊢
  cases hp : g.players t with
  | none => simp [hp]
  | some su =>
    by_cases hid : su.id ≠ q.fromUser.id
    · simp [hp, hid]
    · cases hd : q.data with
      | none => simp [hp, hid]
      | some s =>
        cases hcd : CallbackData.fromChars s with
        | error e' => simp [hp, hid, hcd]
        | ok cd =>
          cases hbi : (match cd with
                       | CallbackData.Place x y => BoardIndex.new x y
                       | _ => Except.error GameError.IllegalState) with
          | error e' => simp [hp, hid, hcd, hbi]
          | ok idx =>
            by_cases hocc : (g.board.get idx).isSome = true
            · simp [hp, hid, hcd, hbi, hocc]
            · exfalso
              rcases hw : (g.board.setCell idx t).checkWinner with _ | w
              · by_cases hdr : (g.board.setCell idx t).checkDraw = true
                · simp [hp, hid, hd, hcd, hbi, hocc, hw, hdr] at h
                · simp [hp, hid, hd, hcd, hbi, hocc, hw, hdr] at h
              · simp [hp, hid, hd, hcd, hbi, hocc, hw] at h

/-- Claim C2: whenever `process_callback` returns any `GameError`, the
session is exactly as it was before the call — its board, players mapping,
score mapping and phase are all unchanged (the model returns the state
alongside the result, translated mutation by mutation, so this equality is
over the whole `Game`). -/
theorem c2_error_leaves_session_unchanged (g : Game) (q : Query) (e : GameError)
    (h : (g.processCallback q).1 = .error e) : (g.processCallback q).2 = g := by
  unfold Game.processCallback at h ⊢
  cases hs : g.state with
  | Waiting =>
    rw [hs] at h
    exact waiting_error_state g q e h
  | Turn t =>
    rw [hs] at h
    exact turn_error_state g t q e h
  | Finished r =>
    rw [hs] at h
    exact finished_error_state g q e h

/-- Claim C2 witness: an empty session receiving a query with no payload
fails with `NoData` and is returned unchanged. -/
theorem c2_error_witness :
    (Game.default.processCallback ⟨⟨3, "Carol"⟩, none⟩).1 = .error .NoData ∧
    (Game.default.processCallback ⟨⟨3, "Carol"⟩, none⟩).2 = Game.default :=
  ⟨rfl, c2_error_leaves_session_unchanged Game.default ⟨⟨3, "Carol"⟩, none⟩ .NoData rfl⟩

/-! ### Claims C3 and C10: the Turn-phase dispatch -/

theorem turn_not_seated_user_permission (g : Game) (m : Shape) (u : User) (q : Query)
    (hs : g.state = .Turn m) (hp : g.players m = some u)
    (hid : q.fromUser.id ≠ u.id) :
    g.processCallback q = (.error .Permission, g) := by
  unfold Game.processCallback Game.processCallbackTurn
  rw [hs]
  have hid' : u.id ≠ q.fromUser.id := fun h => hid h.symm
  simp [hp, hid']

/-- Claim C10: in phase `Turn m` with an identity seated at `m`,
authorization precedes token inspection — any query whose issuer is not the
seated identity fails with `Permission`, whatever the payload (including an
absent or malformed one), and the session is unchanged. -/
theorem c10_turn_authorization_first (g : Game) (m : Shape) (u : User) (q : Query)
    (hs : g.state = .Turn m) (hp : g.players m = some u)
    (hid : q.fromUser.id ≠ u.id) :
    g.processCallback q = (.error .Permission, g) :=
  turn_not_seated_user_permission g m u q hs hp hid

/-- Claim C10 witness: a query from the non-turn player with no payload at
all fails with `Permission` (not `NoData`). -/
theorem c10_turn_authorization_first_witness :
    gTurnAB.processCallback ⟨userB, none⟩ = (.error .Permission, gTurnAB) :=
  c10_turn_authorization_first gTurnAB .X userA ⟨userB, none⟩ rfl rfl (by decide)

/-- Claim C3, counterexample to the claim as stated: in `Turn X` the seated
identity sending `"join"` (which decodes to `Join`, not a well-formed
`Place`) fails with `IllegalState`, not with `UnknownCommand`. -/
theorem c3_counterexample :
    (gTurnAB.processCallback ⟨userA, some "join".toList⟩).1 = .error .IllegalState ∧
    (gTurnAB.processCallback ⟨userA, some "join".toList⟩).1 ≠ .error .UnknownCommand := by
  constructor <;> decide

/-- Claim C3 (amended): in phase `Turn m`, a command issued by the identity
seated at `m` that decodes to `Join`, `Restart` or `Unknown` fails with
`IllegalState` (payloads that fail to parse still fail with
`UnknownCommand` from decoding), and the session is unchanged. -/
theorem c3_turn_nonplace_illegal_state (g : Game) (m : Shape) (u : User) (q : Query)
    (s : List Char) (cd : CallbackData)
    (hs : g.state = .Turn m) (hp : g.players m = some u)
    (hid : q.fromUser.id = u.id) (hd : q.data = some s)
    (hcd : CallbackData.fromChars s = .ok cd)
    (hnp : cd = .Join ∨ cd = .Restart ∨ cd = .Unknown) :
    g.processCallback q = (.error .IllegalState, g) := by
  unfold Game.processCallback Game.processCallbackTurn
  rw [hs]
  have hid' : ¬ u.id ≠ q.fromUser.id := by simp [hid]
  rcases hnp with rfl | rfl | rfl <;> simp [hp, hid', hd, hcd]

/-- Claim C3 witness: the amended theorem applied to the seated identity
sending `"restart"` during its own turn. -/
theorem c3_turn_nonplace_illegal_state_witness :
    gTurnAB.processCallback ⟨userA, some "restart".toList⟩
      = (.error .IllegalState, gTurnAB) :=
  c3_turn_nonplace_illegal_state gTurnAB .X userA ⟨userA, some "restart".toList⟩
    "restart".toList .Restart rfl rfl rfl rfl (by decide) (Or.inr (Or.inl rfl))

/-! ### Claim C7: win resolution -/

/-- Claim C7: in phase `Turn m` with `u` seated at `m`, a valid placement by
`u` whose resulting board has a winning line of `m` succeeds, moves the
phase to `Finished (Victory m)` and increments `u`'s score entry by exactly
one (an absent entry counts as zero and is created), leaving every other
identity's entry unchanged; this holds whether or not the placement also
fills the last empty cell, because the win branch is evaluated before the
draw branch. -/
theorem c7_win_increments_score (g : Game) (m : Shape) (u : User) (q : Query)
    (s : List Char) (x y : Nat) (idx : BoardIndex)
    (hs : g.state = .Turn m) (hp : g.players m = some u)
    (hid : q.fromUser.id = u.id) (hd : q.data = some s)
    (hcd : CallbackData.fromChars s = .ok (.Place x y))
    (hbi : BoardIndex.new x y = .ok idx)
    (hfree : g.board.get idx = none)
    (hwin : (g.board.setCell idx m).checkWinner = some m) :
    (g.processCallback q).1 = .ok () ∧
    (g.processCallback q).2.state = .Finished (.Victory m) ∧
    (g.processCallback q).2.score u = some ((g.score u).getD 0 + 1) ∧
    ∀ u', u' ≠ u → (g.processCallback q).2.score u' = g.score u' := by
  unfold Game.processCallback Game.processCallbackTurn
  rw [hs]
  have hid' : ¬ u.id ≠ q.fromUser.id := by simp [hid]
  simp [hp, hid', hd, hcd, hbi, hfree, hwin, scoreIncr, mapInsert]
  intro u' hu'
  simp [hu']

/-- Claim C7 witness: on the board one cell short of full, `X`'s placement
at `(0, 2)` completes column 0, fills the board, and is reported as a
victory with `userA`'s score moving from 0 to 1. -/
theorem c7_win_increments_score_witness :
    (gAlmostFull.processCallback ⟨userA, some "place:0:2".toList⟩).1 = .ok () ∧
    (gAlmostFull.processCallback ⟨userA, some "place:0:2".toList⟩).2.state
      = .Finished (.Victory .X) ∧
    (gAlmostFull.processCallback ⟨userA, some "place:0:2".toList⟩).2.score userA
      = some 1 := by
  have h := c7_win_increments_score gAlmostFull .X userA
    ⟨userA, some "place:0:2".toList⟩ "place:0:2".toList 0 2
    ⟨0, 2⟩ rfl rfl rfl rfl (by decide) (by decide) (by decide) (by decide)
  exact ⟨h.1, h.2.1, h.2.2.1⟩

/-! ### Claim C8: restart -/

/-- Claim C8: in a `Finished` phase with both marks seated, a `Restart`
from either seated identity succeeds: the board becomes entirely empty, the
phase becomes `Turn X` (the first mark), the two seats exchange their
identities, and the score map is untouched; a `Restart` from any other
identity fails with `Permission` and leaves the session unchanged. -/
theorem c8_restart_swaps_seats (g : Game) (r : GameResult) (ux uo : User)
    (q : Query) (s : List Char)
    (hs : g.state = .Finished r) (hx : g.players .X = some ux)
    (ho : g.players .O = some uo)
    (hd : q.data = some s) (hcd : CallbackData.fromChars s = .ok .Restart) :
    ((q.fromUser.id = ux.id ∨ q.fromUser.id = uo.id) →
      (g.processCallback q).1 = .ok () ∧
      (g.processCallback q).2.board = Board.empty ∧
      (g.processCallback q).2.state = .Turn .X ∧
      (g.processCallback q).2.players .X = some uo ∧
      (g.processCallback q).2.players .O = some ux ∧
      (g.processCallback q).2.score = g.score) ∧
    ((q.fromUser.id ≠ ux.id ∧ q.fromUser.id ≠ uo.id) →
      g.processCallback q = (.error .Permission, g)) := by
  unfold Game.processCallback Game.processCallbackFinished Game.reset Game.swapShapes
  rw [hs]
  constructor
  · intro hor
    have hany : g.anyPlayerId q.fromUser.id = true := by
      unfold Game.anyPlayerId
      rw [hx, ho]
      rcases hor with h | h <;> simp [h]
    simp [hd, hcd, hany, hx, ho, mapInsert]
  · intro h
    have hany : g.anyPlayerId q.fromUser.id = false := by
      unfold Game.anyPlayerId
      rw [hx, ho]
      simp [Ne.symm h.1, Ne.symm h.2]
    simp [hd, hcd, hany]

/-- Claim C8 witness: in the finished session, `userB`'s restart empties
the board, swaps the seats and keeps both scores, while `userC`'s restart
fails with `Permission`. -/
theorem c8_restart_swaps_seats_witness :
    ((gFinAB.processCallback ⟨userB, some "restart".toList⟩).1 = .ok () ∧
     (gFinAB.processCallback ⟨userB, some "restart".toList⟩).2.board = Board.empty ∧
     (gFinAB.processCallback ⟨userB, some "restart".toList⟩).2.state = .Turn .X ∧
     (gFinAB.processCallback ⟨userB, some "restart".toList⟩).2.players .X = some userB ∧
     (gFinAB.processCallback ⟨userB, some "restart".toList⟩).2.players .O = some userA ∧
     (gFinAB.processCallback ⟨userB, some "restart".toList⟩).2.score = gFinAB.score) ∧
    gFinAB.processCallback ⟨userC, some "restart".toList⟩ = (.error .Permission, gFinAB) := by
  constructor
  · exact (c8_restart_swaps_seats gFinAB (.Victory .X) userA userB
      ⟨userB, some "restart".toList⟩ "restart".toList rfl rfl rfl rfl (by decide)).1
      (Or.inr (by decide))
  · exact (c8_restart_swaps_seats gFinAB (.Victory .X) userA userB
      ⟨userC, some "restart".toList⟩ "restart".toList rfl rfl rfl rfl (by decide)).2
      ⟨by decide, by decide⟩

/-! ### Claim C9: joins -/

/-- Claim C9, counterexample to the claim as stated: once two seats are
filled the phase is `Turn X`, and a third distinct identity's `Join` fails
with `Permission` (the turn handler authorizes the issuer before looking at
the token), not with `UnknownCommand`. -/
theorem c9_counterexample :
    (gTurnAB.processCallback ⟨userC, some "join".toList⟩).1 = .error .Permission ∧
    (gTurnAB.processCallback ⟨userC, some "join".toList⟩).1 ≠ .error .UnknownCommand := by
  constructor <;> decide

/-- Claim C9 (amended): in `Waiting`, a `Join` from an identity already
seated fails with `Permission` while a seat is still free; a `Join` from a
distinct second identity while only `X` is seated succeeds and moves the
phase to `Turn X`; and once two seats are filled (phase `Turn m`), a third
distinct identity's `Join` fails with `Permission` (not `UnknownCommand`),
since the turn handler authorizes the issuer before examining the token. -/
theorem c9_join_rules :
    (∀ (g : Game) (q : Query) (sh : Shape) (u : User) (s : List Char),
      g.state = .Waiting → q.data = some s →
      CallbackData.fromChars s = .ok .Join →
      (g.players .X = none ∨ g.players .O = none) →
      g.players sh = some u → u.id = q.fromUser.id →
      g.processCallback q = (.error .Permission, g)) ∧
    (∀ (g : Game) (q : Query) (u0 : User) (s : List Char),
      g.state = .Waiting → q.data = some s →
      CallbackData.fromChars s = .ok .Join →
      g.players .X = some u0 → g.players .O = none →
      q.fromUser.id ≠ u0.id →
      (g.processCallback q).1 = .ok () ∧ (g.processCallback q).2.state = .Turn .X) ∧
    (∀ (g : Game) (q : Query) (m : Shape) (u : User) (s : List Char),
      g.state = .Turn m → q.data = some s →
      CallbackData.fromChars s = .ok .Join →
      g.players m = some u → q.fromUser.id ≠ u.id →
      g.processCallback q = (.error .Permission, g)) := by
  refine ⟨?_, ?_, ?_⟩
  · intro g q sh u s hs hd hcd hfree hseat hid
    unfold Game.processCallback Game.processCallbackWaiting Game.addUser
    rw [hs]
    have hany : g.anyPlayerId q.fromUser.id = true := by
      unfold Game.anyPlayerId
      cases sh
      · rw [hseat]
        simp [hid]
      · rw [hseat]
        simp [hid]
    have hff : ∃ sh', g.findFreeShape = some sh' := by
      unfold Game.findFreeShape SHAPES
      rcases hfree with hX | hO
      · exact ⟨.X, by simp [List.find?, hX]⟩
      · cases hX : g.players .X with
        | none => exact ⟨.X, by simp [List.find?, hX]⟩
        | some uX => exact ⟨.O, by simp [List.find?, hX, hO]⟩
    obtain ⟨sh', hff⟩ := hff
    simp [hd, hcd, hff, hany]
  · intro g q u0 s hs hd hcd hX hO hne
    unfold Game.processCallback Game.processCallbackWaiting Game.addUser
    rw [hs]
    have hff : g.findFreeShape = some .O := by
      unfold Game.findFreeShape SHAPES
      simp [List.find?, hX, hO]
    have hany : g.anyPlayerId q.fromUser.id = false := by
      unfold Game.anyPlayerId
      rw [hX, hO]
      simp [Ne.symm hne]
    simp [hd, hcd, hff, hany, Game.playersLen, mapInsert, hX]
  · intro g q m u s hs hd hcd hp hne
    exact turn_not_seated_user_permission g m u q hs hp hne

/-- Claim C9 witness: the three amended rules at concrete sessions —
`userA` rejoining alone, `userB` joining as the second player, and `userC`
joining a full session. -/
theorem c9_join_rules_witness :
    gWaitA.processCallback ⟨userA, some "join".toList⟩ = (.error .Permission, gWaitA) ∧
    ((gWaitA.processCallback ⟨userB, some "join".toList⟩).1 = .ok () ∧
     (gWaitA.processCallback ⟨userB, some "join".toList⟩).2.state = .Turn .X) ∧
    gTurnAB.processCallback ⟨userC, some "join".toList⟩ = (.error .Permission, gTurnAB) := by
  refine ⟨?_, ?_, ?_⟩
  · exact c9_join_rules.1 gWaitA ⟨userA, some "join".toList⟩ .X userA "join".toList
      rfl rfl (by decide) (Or.inr rfl) rfl (by decide)
  · exact c9_join_rules.2.1 gWaitA ⟨userB, some "join".toList⟩ userA "join".toList
      rfl rfl (by decide) rfl rfl (by decide)
  · exact c9_join_rules.2.2 gTurnAB ⟨userC, some "join".toList⟩ .X userA "join".toList
      rfl rfl (by decide) rfl (by decide)

end TicTacToe
